import Mathlib

/-!
# BlueZ Android IPC dispatcher (`android/ipc.c`)

A shallow embedding of `android/ipc.c`: the service registry, the outbound
framing (`ipc_send` and its three public wrappers) and the inbound validation
pipeline (`ipc_handle_msg`).

Conventions of the embedding.

* Bytes and machine integers are natural numbers; a value passed through a
  `uint8_t` / `uint16_t` parameter is reduced `% 256` / `% 65536` where the C
  conversion happens.
* A received message is the list of its bytes; the `len` argument of
  `ipc_handle_msg` is the length of that list.
* A C pointer to a handler table is `Option (List ipc_handler)`; `none` is
  `NULL`.  The list is the extent of the table in memory, which is independent
  of the `size` stored next to it.
* A handler function pointer is a natural number (its address).  Calls,
  log lines, `raise(SIGTERM)` and `sendmsg` are recorded as a list of `Event`s,
  in program order.
* An array read outside its extent has no defined result: the function that
  performs it returns `none`.
-/

namespace Ipc

/-! ## Declarations of `hal-msg.h` and `ipc.h` -/

/-- Byte order of the machine: `struct hal_hdr` is written and read in place,
so its 16-bit `len` field has the byte order of the target. -/
inductive Endian where
  | little
  | big
  deriving DecidableEq, Repr

/-- Modelled from the spec: `HAL_OP_STATUS` of `hal-msg.h`, the reserved status
opcode, which the spec fixes at `0`. -/
def HAL_OP_STATUS : Nat := 0

/-- Modelled from the spec: `struct hal_hdr` of `hal-msg.h`, the packed header
`service_id` (1 byte), `opcode` (1 byte), `len` (2 bytes), followed by the
payload. -/
structure hal_hdr where
  service_id : Nat
  opcode : Nat
  len : Nat
  deriving DecidableEq, Repr

/-- Modelled from the spec: `sizeof(struct hal_hdr)`, the payload starts at
offset 4. -/
def hal_hdr_size : Nat := 4

/-- Modelled from the spec: `sizeof(struct hal_status)`, a 1-byte payload
carrying the status code. -/
def hal_status_size : Nat := 1

/-- The two bytes of a `uint16_t` object in memory. -/
def u16_bytes (e : Endian) (v : Nat) : List Nat :=
  match e with
  | .little => [v % 256, v / 256 % 256]
  | .big => [v / 256 % 256, v % 256]

/-- The `uint16_t` value held by two consecutive bytes of memory. -/
def u16_read (e : Endian) (b0 b1 : Nat) : Nat :=
  match e with
  | .little => b0 + 256 * b1
  | .big => 256 * b0 + b1

/-- The bytes of a `struct hal_hdr` object (`iov_base = &m`,
`iov_len = sizeof(m)`). -/
def hal_hdr.bytes (e : Endian) (m : hal_hdr) : List Nat :=
  [m.service_id, m.opcode] ++ u16_bytes e m.len

/-- The header fields seen through `const struct hal_hdr *msg = buf`. Only
used on a buffer of at least `hal_hdr_size` bytes. -/
def hal_hdr.view (e : Endian) (buf : List Nat) : hal_hdr :=
  { service_id := buf.getD 0 0
    opcode := buf.getD 1 0
    len := u16_read e (buf.getD 2 0) (buf.getD 3 0) }

/-- The flexible array member `msg->payload`: the bytes after the header. -/
def hal_hdr.payload (buf : List Nat) : List Nat :=
  buf.drop hal_hdr_size

/-- Modelled from the spec: `struct ipc_handler` of `ipc.h`, the operation
descriptor: handler function pointer, variable-length flag, expected length. -/
structure ipc_handler where
  handler : Nat
  var_len : Bool
  data_len : Nat
  deriving DecidableEq, Repr

/-! ## State of `ipc.c` -/

/-- The `struct service_handler` of the source. -/
structure service_handler where
  handler : Option (List ipc_handler)
  size : Nat
  deriving DecidableEq, Repr

/-- The file-scope variables: `services[HAL_SERVICE_ID_MAX + 1]`, `cmd_sk`,
`notif_sk`. -/
structure ipc_state where
  services : List service_handler
  cmd_sk : Int
  notif_sk : Int
  deriving DecidableEq, Repr

/-- The state at program start: a zero-initialised `services` array of
`HAL_SERVICE_ID_MAX + 1` entries, both sockets `-1`. -/
def ipc_state.initial (HAL_SERVICE_ID_MAX : Nat) : ipc_state :=
  { services := List.replicate (HAL_SERVICE_ID_MAX + 1) { handler := none, size := 0 }
    cmd_sk := -1
    notif_sk := -1 }

/-- The `services` array has exactly `HAL_SERVICE_ID_MAX + 1` entries. -/
def ipc_state.sized (HAL_SERVICE_ID_MAX : Nat) (st : ipc_state) : Prop :=
  st.services.length = HAL_SERVICE_ID_MAX + 1

instance (M : Nat) (st : ipc_state) : Decidable (st.sized M) := by
  unfold ipc_state.sized; infer_instance

/-! ## Observable events -/

/-- The log lines of `ipc.c`, one constructor per `error(...)` call; the
arguments are listed in the order in which they are passed to the format. -/
inductive Diag where
  /-- The line `"IPC send failed, terminating :%s"`. -/
  | send_failed
  /-- The line `"IPC: message too small (%zd bytes), terminating"`. -/
  | too_small (len : Nat)
  /-- The line `"IPC: message malformed (%zd bytes), terminating"`. -/
  | malformed (len : Nat)
  /-- The line `"IPC: unknown service (0x%x), terminating"`. -/
  | unknown_service (service : Nat)
  /-- The line `"IPC: unregistered service (0x%x), terminating"`. -/
  | unregistered_service (service : Nat)
  /-- The line `"IPC: invalid opcode 0x%x for service 0x%x, terminating"`:
  the first argument fills the slot labelled opcode, the second the slot
  labelled service. -/
  | invalid_opcode (opcode_slot service_slot : Nat)
  /-- The line `"IPC: size invalid opcode 0x%x service 0x%x, terminating"`:
  the first argument fills the slot labelled opcode, the second the slot
  labelled service. -/
  | size_invalid (opcode_slot service_slot : Nat)
  deriving DecidableEq, Repr

/-- The control message built when `fd >= 0`: level `SOL_SOCKET`, type
`SCM_RIGHTS`, carrying one descriptor. -/
structure cmsghdr where
  fd : Int
  deriving DecidableEq, Repr

/-- The `struct msghdr` handed to `sendmsg`: the scatter list and the optional
control message. -/
structure msghdr where
  msg_iov : List (List Nat)
  msg_control : Option cmsghdr
  deriving DecidableEq, Repr

/-- The in-band bytes of a message: its scatter list concatenated. -/
def msghdr.inband (m : msghdr) : List Nat :=
  m.msg_iov.flatten

/-- The effects of the functions of `ipc.c`. -/
inductive Event where
  | error (d : Diag)
  | raise_SIGTERM
  | sendmsg (sk : Int) (msg : msghdr)
  | call (handler : Nat) (payload : List Nat) (len : Nat)
  deriving DecidableEq, Repr

/-! ## The functions of `ipc.c` -/

/-- The function `ipc_init`. -/
def ipc_init (st : ipc_state) (command_sk notification_sk : Int) : ipc_state :=
  { st with cmd_sk := command_sk, notif_sk := notification_sk }

/-- The function `ipc_cleanup`. -/
def ipc_cleanup (st : ipc_state) : ipc_state :=
  { st with cmd_sk := -1, notif_sk := -1 }

/-- The static function `ipc_send`. `sendmsg` gives the return value of the
system call for the socket and message it is handed; `param` is the memory
`param` points to (empty for `NULL`). -/
def ipc_send (e : Endian) (sendmsg : Int → msghdr → Int) (sk : Int)
    (service_id opcode len : Nat) (param : List Nat) (fd : Int) : List Event :=
  let m : hal_hdr :=
    { service_id := service_id % 256, opcode := opcode % 256, len := len % 65536 }
  let iv : List (List Nat) := [m.bytes e, param.take (len % 65536)]
  let msg : msghdr :=
    { msg_iov := iv
      msg_control := if fd ≥ 0 then some { fd := fd } else none }
  if sendmsg sk msg < 0 then
    [Event.sendmsg sk msg, Event.error Diag.send_failed, Event.raise_SIGTERM]
  else
    [Event.sendmsg sk msg]

/-- The function `ipc_send_rsp`. `HAL_STATUS_SUCCESS` is the constant of
`hal-msg.h`. -/
def ipc_send_rsp (e : Endian) (sendmsg : Int → msghdr → Int) (HAL_STATUS_SUCCESS : Nat)
    (st : ipc_state) (service_id opcode status : Nat) : ipc_state × List Event :=
  if status % 256 = HAL_STATUS_SUCCESS then
    (st, ipc_send e sendmsg st.cmd_sk service_id opcode 0 [] (-1))
  else
    let s : List Nat := [status % 256]
    (st, ipc_send e sendmsg st.cmd_sk service_id HAL_OP_STATUS hal_status_size s (-1))

/-- The function `ipc_send_rsp_full`. -/
def ipc_send_rsp_full (e : Endian) (sendmsg : Int → msghdr → Int)
    (st : ipc_state) (service_id opcode len : Nat) (param : List Nat) (fd : Int) :
    ipc_state × List Event :=
  (st, ipc_send e sendmsg st.cmd_sk service_id opcode len param fd)

/-- The function `ipc_send_notif`. -/
def ipc_send_notif (e : Endian) (sendmsg : Int → msghdr → Int)
    (st : ipc_state) (service_id opcode len : Nat) (param : List Nat) :
    ipc_state × List Event :=
  if st.notif_sk < 0 then
    (st, [])
  else
    (st, ipc_send e sendmsg st.notif_sk service_id opcode len param (-1))

/-- The function `ipc_register`. The write `services[service]` is defined only
inside the array. -/
def ipc_register (st : ipc_state) (service : Nat) (handlers : Option (List ipc_handler))
    (size : Nat) : Option ipc_state :=
  if service % 256 < st.services.length then
    some { st with
      services := st.services.set (service % 256) { handler := handlers, size := size % 256 } }
  else
    none

/-- The function `ipc_unregister`. The write `services[service]` is defined
only inside the array. -/
def ipc_unregister (st : ipc_state) (service : Nat) : Option ipc_state :=
  if service % 256 < st.services.length then
    some { st with
      services := st.services.set (service % 256) { handler := none, size := 0 } }
  else
    none

/-- The function `ipc_handle_msg`, on the received bytes `buf` with
`len = buf.length`. The result is the trace of effects, or `none` when an
array is read outside its extent. -/
def ipc_handle_msg (e : Endian) (HAL_SERVICE_ID_MAX : Nat) (st : ipc_state)
    (buf : List Nat) : Option (List Event) :=
  let len := buf.length
  if len < hal_hdr_size then
    some [Event.error (Diag.too_small len), Event.raise_SIGTERM]
  else
    let msg := hal_hdr.view e buf
    if len ≠ hal_hdr_size + msg.len then
      some [Event.error (Diag.malformed len), Event.raise_SIGTERM]
    else if msg.service_id > HAL_SERVICE_ID_MAX then
      some [Event.error (Diag.unknown_service msg.service_id), Event.raise_SIGTERM]
    else
      match st.services[msg.service_id]? with
      | none => none
      | some svc =>
        match svc.handler with
        | none =>
          some [Event.error (Diag.unregistered_service msg.service_id), Event.raise_SIGTERM]
        | some table =>
          if msg.opcode = HAL_OP_STATUS ∨ msg.opcode > svc.size then
            some [Event.error (Diag.invalid_opcode msg.opcode msg.service_id),
                  Event.raise_SIGTERM]
          else
            match table[msg.opcode - 1]? with
            | none => none
            | some handler =>
              if (handler.var_len = true ∧ handler.data_len > msg.len) ∨
                  (handler.var_len = false ∧ handler.data_len ≠ msg.len) then
                some [Event.error (Diag.size_invalid msg.service_id msg.opcode),
                      Event.raise_SIGTERM]
              else
                some [Event.call handler.handler (hal_hdr.payload buf) msg.len]

/-! ## Vocabulary of the specification -/

/-- The error taxonomy of the specification (section 7). -/
inductive FatalError where
  | StructuralError
  | UnknownService
  | UnregisteredService
  | InvalidOpcode
  | PayloadLengthMismatch
  | TransportSendFailure
  deriving DecidableEq, Repr

/-- The class of the taxonomy that each log line of the source reports. -/
def Diag.kind : Diag → FatalError
  | .send_failed => .TransportSendFailure
  | .too_small _ => .StructuralError
  | .malformed _ => .StructuralError
  | .unknown_service _ => .UnknownService
  | .unregistered_service _ => .UnregisteredService
  | .invalid_opcode _ _ => .InvalidOpcode
  | .size_invalid _ _ => .PayloadLengthMismatch

/-- The fatal errors reported in a trace, in order. -/
def fatal_errors (t : List Event) : List FatalError :=
  t.filterMap fun ev =>
    match ev with
    | .error d => some d.kind
    | _ => none

/-- The handler invocations of a trace, in order: function pointer, payload
and length argument. -/
def calls (t : List Event) : List (Nat × List Nat × Nat) :=
  t.filterMap fun ev =>
    match ev with
    | .call h p l => some (h, p, l)
    | _ => none

/-- The messages handed to `sendmsg` in a trace, in order, each with its
socket. -/
def sent (t : List Event) : List (Int × msghdr) :=
  t.filterMap fun ev =>
    match ev with
    | .sendmsg sk m => some (sk, m)
    | _ => none

/-- The payload length rule of a descriptor: exact length when fixed, minimum
length when variable. -/
def length_rule (d : ipc_handler) (len : Nat) : Prop :=
  (d.var_len = false ∧ len = d.data_len) ∨ (d.var_len = true ∧ len ≥ d.data_len)

instance (d : ipc_handler) (len : Nat) : Decidable (length_rule d len) := by
  unfold length_rule; infer_instance

/-- A message is structurally valid: it holds a full header and its length is
the header size plus the length the header declares. -/
def structural (e : Endian) (buf : List Nat) : Prop :=
  hal_hdr_size ≤ buf.length ∧ buf.length = hal_hdr_size + (hal_hdr.view e buf).len

instance (e : Endian) (buf : List Nat) : Decidable (structural e buf) := by
  unfold structural; infer_instance

/-- The structural part of `ipc_handle_msg` (its first two checks) as a
decoder: the header fields and the payload of a structurally valid message. -/
def decode (e : Endian) (buf : List Nat) : Option (hal_hdr × List Nat) :=
  let len := buf.length
  if len < hal_hdr_size then
    none
  else
    let msg := hal_hdr.view e buf
    if len ≠ hal_hdr_size + msg.len then
      none
    else
      some (msg, hal_hdr.payload buf)

/-- Each stored table has at least as many descriptors as the size stored
with it. -/
def ipc_state.tables_ok (st : ipc_state) : Prop :=
  ∀ svc ∈ st.services, ∀ table ∈ svc.handler, svc.size ≤ table.length

instance (st : ipc_state) : Decidable st.tables_ok := by
  unfold ipc_state.tables_ok; infer_instance

/-- The table registered for service `S`, if any. -/
def registered_table (st : ipc_state) (S : Nat) : Option (List ipc_handler) :=
  match st.services[S]? with
  | none => none
  | some svc => svc.handler

/-- The size registered for service `S`. -/
def registered_size (st : ipc_state) (S : Nat) : Nat :=
  match st.services[S]? with
  | none => 0
  | some svc => svc.size

/-- The descriptor an opcode resolves to: entry `opcode - 1` of the table
registered for the service. -/
def resolved_descriptor (st : ipc_state) (hdr : hal_hdr) : Option ipc_handler :=
  match registered_table st hdr.service_id with
  | none => none
  | some table => table[hdr.opcode - 1]?

/-- Step 5 of the pipeline: the payload length satisfies the rule of the
resolved descriptor. -/
def payload_ok (st : ipc_state) (hdr : hal_hdr) : Bool :=
  match resolved_descriptor st hdr with
  | none => false
  | some d => decide (length_rule d hdr.len)

/-- The validation pipeline as the specification words it (section 4.3):
five steps checked in order, the first one that fails names the error, each
step being a condition on the message and the registry alone. -/
def spec_first_failure (e : Endian) (MAX_SERVICE : Nat) (st : ipc_state) (buf : List Nat) :
    Option FatalError :=
  let hdr := hal_hdr.view e buf
  if ¬ structural e buf then
    some FatalError.StructuralError
  else if ¬ hdr.service_id ≤ MAX_SERVICE then
    some FatalError.UnknownService
  else if registered_table st hdr.service_id = none then
    some FatalError.UnregisteredService
  else if ¬ (hdr.opcode ≠ 0 ∧ hdr.opcode ≤ registered_size st hdr.service_id) then
    some FatalError.InvalidOpcode
  else if payload_ok st hdr = false then
    some FatalError.PayloadLengthMismatch
  else
    none

/-- The whole pipeline passes: a full header, a total length equal to the
header size plus the declared length, a service id in range, a handler table
for the service, an opcode between 1 and the registered size, and the length
rule of the resolved descriptor. -/
def pipeline_passes (e : Endian) (MAX_SERVICE : Nat) (st : ipc_state) (buf : List Nat) : Prop :=
  hal_hdr_size ≤ buf.length ∧
  buf.length = hal_hdr_size + (hal_hdr.view e buf).len ∧
  (hal_hdr.view e buf).service_id ≤ MAX_SERVICE ∧
  ∃ svc table d,
    st.services[(hal_hdr.view e buf).service_id]? = some svc ∧
    svc.handler = some table ∧
    1 ≤ (hal_hdr.view e buf).opcode ∧
    (hal_hdr.view e buf).opcode ≤ svc.size ∧
    table[(hal_hdr.view e buf).opcode - 1]? = some d ∧
    length_rule d (hal_hdr.view e buf).len

/-- A registry holding one service, number `S`, whose table is `table` with
declared size `size`; services `0 .. S - 1` are unregistered. -/
def registry_with (S : Nat) (table : List ipc_handler) (size : Nat) : ipc_state :=
  { services :=
      List.replicate S { handler := none, size := 0 } ++ [{ handler := some table, size := size }]
    cmd_sk := 3
    notif_sk := 4 }

/-- A structurally valid message for service `S`, opcode `k`, with a payload of
`n` bytes `1, 2, .., n`. -/
def frame (e : Endian) (S k n : Nat) : List Nat :=
  hal_hdr.bytes e { service_id := S, opcode := k, len := n } ++ (List.range n).map (· + 1)

/-- A fixed-length descriptor expecting exactly 4 bytes. -/
def fixed4 : ipc_handler := { handler := 7, var_len := false, data_len := 4 }

/-- A variable-length descriptor expecting at least 2 bytes. -/
def var2 : ipc_handler := { handler := 9, var_len := true, data_len := 2 }

/-- The registry with every table cut down to the size stored with it: what
is left of the state when no descriptor beyond the declared size exists. -/
def ipc_state.clipped (st : ipc_state) : ipc_state :=
  { st with
    services := st.services.map fun svc =>
      { svc with handler := svc.handler.map fun table => table.take svc.size } }

/-! ## Basic facts -/

theorem view_cons (e : Endian) (a b c d : Nat) (rest : List Nat) :
    hal_hdr.view e (a :: b :: c :: d :: rest) =
      { service_id := a, opcode := b, len := u16_read e c d } := by
  simp [hal_hdr.view]

theorem exists_cons_of_header (buf : List Nat) (h : hal_hdr_size ≤ buf.length) :
    ∃ a b c d rest, buf = a :: b :: c :: d :: rest := by
  match buf, h with
  | a :: b :: c :: d :: rest, _ => exact ⟨a, b, c, d, rest, rfl⟩
  | [], h => simp [hal_hdr_size] at h
  | [_], h => simp [hal_hdr_size] at h
  | [_, _], h => simp [hal_hdr_size] at h
  | [_, _, _], h => simp [hal_hdr_size] at h

theorem u16_read_bytes (e : Endian) (v : Nat) (h : v < 65536) :
    ∃ b0 b1, u16_bytes e v = [b0, b1] ∧ u16_read e b0 b1 = v := by
  cases e
  · exact ⟨v % 256, v / 256 % 256, rfl, by simp only [u16_read]; omega⟩
  · exact ⟨v / 256 % 256, v % 256, rfl, by simp only [u16_read]; omega⟩

/-- The validation of a structurally valid message for an in-range service
continues with the registry lookup. -/
theorem handle_structural (e : Endian) (M : Nat) (st : ipc_state) (buf : List Nat)
    (hs : structural e buf) (hM : (hal_hdr.view e buf).service_id ≤ M) :
    ipc_handle_msg e M st buf =
      match st.services[(hal_hdr.view e buf).service_id]? with
      | none => none
      | some svc =>
        match svc.handler with
        | none =>
          some [Event.error (Diag.unregistered_service (hal_hdr.view e buf).service_id),
                Event.raise_SIGTERM]
        | some table =>
          if (hal_hdr.view e buf).opcode = HAL_OP_STATUS ∨
              (hal_hdr.view e buf).opcode > svc.size then
            some [Event.error (Diag.invalid_opcode (hal_hdr.view e buf).opcode
                    (hal_hdr.view e buf).service_id), Event.raise_SIGTERM]
          else
            match table[(hal_hdr.view e buf).opcode - 1]? with
            | none => none
            | some handler =>
              if (handler.var_len = true ∧ handler.data_len > (hal_hdr.view e buf).len) ∨
                  (handler.var_len = false ∧ handler.data_len ≠ (hal_hdr.view e buf).len) then
                some [Event.error (Diag.size_invalid (hal_hdr.view e buf).service_id
                        (hal_hdr.view e buf).opcode), Event.raise_SIGTERM]
              else
                some [Event.call handler.handler (hal_hdr.payload buf)
                        (hal_hdr.view e buf).len] := by
  obtain ⟨h1, h2⟩ := hs
  unfold ipc_handle_msg
  simp only [Nat.not_lt.mpr h1, if_false, Nat.not_lt.mpr hM]
  rw [if_neg (by simpa using h2)]

/-- The negation of the source's size test is the length rule. -/
theorem length_rule_iff (d : ipc_handler) (len : Nat) :
    length_rule d len ↔
      ¬ ((d.var_len = true ∧ d.data_len > len) ∨ (d.var_len = false ∧ d.data_len ≠ len)) := by
  unfold length_rule
  cases d.var_len
  · simp; omega
  · simp

/-- The one message `ipc_send` hands to `sendmsg`, whatever the system call
returns. -/
theorem sent_ipc_send (e : Endian) (sendmsg : Int → msghdr → Int) (sk : Int)
    (service_id opcode len : Nat) (param : List Nat) (fd : Int) :
    sent (ipc_send e sendmsg sk service_id opcode len param fd) =
      [(sk, { msg_iov :=
                [hal_hdr.bytes e
                   { service_id := service_id % 256, opcode := opcode % 256, len := len % 65536 },
                 param.take (len % 65536)]
              msg_control := if fd ≥ 0 then some { fd := fd } else none })] := by
  unfold ipc_send
  simp only []
  split_ifs <;> rfl

/-- Inside the array, `ipc_register` stores the pointer and the size. -/
theorem ipc_register_inside (st : ipc_state) (S : Nat) (handlers : Option (List ipc_handler))
    (N : Nat) (h : S % 256 < st.services.length) :
    ipc_register st S handlers N =
      some { st with
        services := st.services.set (S % 256) { handler := handlers, size := N % 256 } } := by
  unfold ipc_register
  rw [if_pos h]

/-- Inside the array, `ipc_unregister` clears the pointer and the size. -/
theorem ipc_unregister_inside (st : ipc_state) (S : Nat) (h : S % 256 < st.services.length) :
    ipc_unregister st S =
      some { st with services := st.services.set (S % 256) { handler := none, size := 0 } } := by
  unfold ipc_unregister
  rw [if_pos h]

/-- A message that is not structurally valid ends with one of the two
structural log lines. -/
theorem handle_not_structural (e : Endian) (M : Nat) (st : ipc_state) (buf : List Nat)
    (hs : ¬ structural e buf) :
    ∃ d, d.kind = FatalError.StructuralError ∧
      ipc_handle_msg e M st buf = some [Event.error d, Event.raise_SIGTERM] := by
  unfold structural at hs
  unfold ipc_handle_msg
  by_cases h1 : buf.length < hal_hdr_size
  · exact ⟨Diag.too_small buf.length, rfl, by simp [h1]⟩
  · have h2 : buf.length ≠ hal_hdr_size + (hal_hdr.view e buf).len := by
      intro hc
      exact hs ⟨Nat.not_lt.mp h1, hc⟩
    exact ⟨Diag.malformed buf.length, rfl, by simp [h1, h2]⟩

/-- A structurally valid message for a service id beyond the maximum ends with
the unknown-service log line. -/
theorem handle_unknown_service (e : Endian) (M : Nat) (st : ipc_state) (buf : List Nat)
    (hs : structural e buf) (hM : ¬ (hal_hdr.view e buf).service_id ≤ M) :
    ipc_handle_msg e M st buf =
      some [Event.error (Diag.unknown_service (hal_hdr.view e buf).service_id),
            Event.raise_SIGTERM] := by
  obtain ⟨h1, h2⟩ := hs
  unfold ipc_handle_msg
  simp only [Nat.not_lt.mpr h1, if_false]
  rw [if_neg (by simpa using h2), if_pos (by omega)]

/-- In a state whose tables are as long as their declared size, an opcode
within the declared size resolves to a descriptor. -/
theorem descriptor_exists (st : ipc_state) (S : Nat) (svc : service_handler)
    (table : List ipc_handler) (op : Nat)
    (htab : st.tables_ok) (hsvc : st.services[S]? = some svc) (ht : svc.handler = some table)
    (h1 : op ≠ 0) (h2 : op ≤ svc.size) :
    ∃ d, table[op - 1]? = some d := by
  have hmem : svc ∈ st.services := List.getElem?_mem hsvc
  have hle : svc.size ≤ table.length := htab svc hmem table (by simp [ht])
  have hlt : op - 1 < table.length := by omega
  exact ⟨table[op - 1], List.getElem?_eq_getElem hlt⟩

/-- On a structurally valid message `decode` yields the header view and the
payload that `ipc_handle_msg` goes on with. -/
theorem decode_of_structural (e : Endian) (buf : List Nat) (hs : structural e buf) :
    decode e buf = some (hal_hdr.view e buf, hal_hdr.payload buf) := by
  obtain ⟨h1, h2⟩ := hs
  unfold decode
  simp only [Nat.not_lt.mpr h1, if_false]
  rw [if_neg (by simpa using h2)]

/-- The messages `decode` rejects are those on which `ipc_handle_msg` ends with
a structural log line. -/
theorem decode_of_not_structural (e : Endian) (buf : List Nat) (hs : ¬ structural e buf) :
    decode e buf = none := by
  unfold structural at hs
  unfold decode
  by_cases h1 : buf.length < hal_hdr_size
  · simp [h1]
  · have h2 : buf.length ≠ hal_hdr_size + (hal_hdr.view e buf).len := by
      intro hc
      exact hs ⟨Nat.not_lt.mp h1, hc⟩
    simp [h1, h2]

/-- The bytes of a header followed by a payload of the declared length form a
structurally valid message, whose header view and payload are the ones that
were written. -/
theorem encoded_structural (e : Endian) (service_id opcode : Nat) (payload : List Nat)
    (ctl : Option cmsghdr) (hlen : payload.length < 65536) :
    structural e (msghdr.inband
      { msg_iov :=
          [hal_hdr.bytes e
             { service_id := service_id, opcode := opcode, len := payload.length }, payload]
        msg_control := ctl }) ∧
    hal_hdr.view e (msghdr.inband
      { msg_iov :=
          [hal_hdr.bytes e
             { service_id := service_id, opcode := opcode, len := payload.length }, payload]
        msg_control := ctl }) =
      { service_id := service_id, opcode := opcode, len := payload.length } ∧
    hal_hdr.payload (msghdr.inband
      { msg_iov :=
          [hal_hdr.bytes e
             { service_id := service_id, opcode := opcode, len := payload.length }, payload]
        msg_control := ctl }) = payload := by
  obtain ⟨b0, b1, hb, hr⟩ := u16_read_bytes e payload.length hlen
  simp only [msghdr.inband, hal_hdr.bytes, hb]
  refine ⟨?_, ?_, ?_⟩
  · simp [structural, hal_hdr.view, hal_hdr_size, hr]
    omega
  · simp [hal_hdr.view, hr]
  · simp [hal_hdr.payload, hal_hdr_size]

/-! ## Dispatch -/

/-- C1. Handler selection: in a registry where service `S <= HAL_SERVICE_ID_MAX`
is registered with table `table` and size `N`, a structurally valid message for
service `S` and opcode `k` with `1 <= k <= N`, whose payload length satisfies
the length rule of `table[k-1]`, makes `ipc_handle_msg` call exactly
`table[k-1].handler`, once, with the bytes after the 4-byte header and the
length field of the header, and nothing else happens. -/
theorem handle_msg_selects_handler (e : Endian) (M : Nat) (st : ipc_state) (S N k : Nat)
    (table : List ipc_handler) (d : ipc_handler) (buf : List Nat)
    (hS : S ≤ M)
    (hreg : st.services[S]? = some { handler := some table, size := N })
    (hk1 : 1 ≤ k) (hkN : k ≤ N)
    (hd : table[k - 1]? = some d)
    (hstruct : structural e buf)
    (hsid : (hal_hdr.view e buf).service_id = S)
    (hop : (hal_hdr.view e buf).opcode = k)
    (hrule : length_rule d (hal_hdr.view e buf).len) :
    ipc_handle_msg e M st buf =
      some [Event.call d.handler (buf.drop 4) (hal_hdr.view e buf).len] := by
  rw [handle_structural e M st buf hstruct (by omega)]
  have hnot := (length_rule_iff d _).mp hrule
  simp only [hsid, hop, hreg, hd, HAL_OP_STATUS]
  rw [if_neg (by omega), if_neg hnot]
  rfl

theorem handle_msg_selects_handler_witness :
    ipc_handle_msg Endian.little 1
        (registry_with 1 [{ handler := 7, var_len := false, data_len := 4 }] 1)
        [1, 1, 4, 0, 0, 0, 0, 1] =
      some [Event.call 7 [0, 0, 0, 1] 4] :=
  handle_msg_selects_handler Endian.little 1
    (registry_with 1 [{ handler := 7, var_len := false, data_len := 4 }] 1) 1 1 1
    [{ handler := 7, var_len := false, data_len := 4 }]
    { handler := 7, var_len := false, data_len := 4 } [1, 1, 4, 0, 0, 0, 0, 1]
    (by decide) (by decide) (by decide) (by decide) (by decide) (by decide) (by decide)
    (by decide) (by decide)

/-- C2. Round trip: for a service id and an opcode that fit in 8 bits and a
payload whose length fits in 16 bits, `ipc_send` hands exactly one message to
`sendmsg`, and `ipc_handle_msg` run on the in-band bytes of that message, in
any registry, passes its two structural checks and goes on with exactly the
service id, the opcode, the payload and the payload length that were sent:
they are the values it tests against the registry, logs, and hands to the
handler. Stated on the decoder `decode` as well. -/
theorem decode_ipc_send (e : Endian) (sendmsg : Int → msghdr → Int) (sk : Int)
    (service_id opcode : Nat) (payload : List Nat) (fd : Int)
    (hsid : service_id < 256) (hop : opcode < 256) (hlen : payload.length < 65536) :
    ∃ msg, sent (ipc_send e sendmsg sk service_id opcode payload.length payload fd) = [(sk, msg)] ∧
      decode e msg.inband =
        some ({ service_id := service_id, opcode := opcode, len := payload.length }, payload) ∧
      ∀ (M : Nat) (st : ipc_state),
        ipc_handle_msg e M st msg.inband =
          if service_id > M then
            some [Event.error (Diag.unknown_service service_id), Event.raise_SIGTERM]
          else
            match st.services[service_id]? with
            | none => none
            | some svc =>
              match svc.handler with
              | none =>
                some [Event.error (Diag.unregistered_service service_id), Event.raise_SIGTERM]
              | some table =>
                if opcode = 0 ∨ opcode > svc.size then
                  some [Event.error (Diag.invalid_opcode opcode service_id), Event.raise_SIGTERM]
                else
                  match table[opcode - 1]? with
                  | none => none
                  | some handler =>
                    if (handler.var_len = true ∧ handler.data_len > payload.length) ∨
                        (handler.var_len = false ∧ handler.data_len ≠ payload.length) then
                      some [Event.error (Diag.size_invalid service_id opcode),
                            Event.raise_SIGTERM]
                    else
                      some [Event.call handler.handler payload payload.length] := by
  obtain ⟨hs, hv, hp⟩ := encoded_structural e service_id opcode payload
    (if fd ≥ 0 then some { fd := fd } else none) hlen
  refine ⟨_, sent_ipc_send e sendmsg sk service_id opcode payload.length payload fd, ?_, ?_⟩
  · simp only [Nat.mod_eq_of_lt hsid, Nat.mod_eq_of_lt hop, Nat.mod_eq_of_lt hlen,
      List.take_length]
    rw [decode_of_structural e _ hs, hv, hp]
  · intro M st
    simp only [Nat.mod_eq_of_lt hsid, Nat.mod_eq_of_lt hop, Nat.mod_eq_of_lt hlen,
      List.take_length]
    by_cases hM : service_id ≤ M
    · rw [handle_structural e M st _ hs (by rw [hv]; exact hM), hv, hp,
        if_neg (Nat.not_lt.mpr hM)]
      rfl
    · rw [handle_unknown_service e M st _ hs (by rw [hv]; exact hM), hv,
        if_pos (Nat.lt_of_not_le hM)]

theorem decode_ipc_send_witness :
    ∃ msg, sent (ipc_send Endian.big (fun _ _ => 0) 3 2 2 [9, 8, 7].length [9, 8, 7] (-1)) =
        [(3, msg)] ∧
      decode Endian.big msg.inband =
        some ({ service_id := 2, opcode := 2, len := [9, 8, 7].length }, [9, 8, 7]) ∧
      ipc_handle_msg Endian.big 2 (registry_with 2 [fixed4, var2] 2) msg.inband =
        some [Event.call 9 [9, 8, 7] 3] :=
  (decode_ipc_send Endian.big (fun _ _ => 0) 3 2 2 [9, 8, 7] (-1)
    (by decide) (by decide) (by decide)).imp fun _ h =>
      ⟨h.1, h.2.1, (h.2.2 2 (registry_with 2 [fixed4, var2] 2)).trans (by decide)⟩

/-- Opcode `0` on an unregistered service: on the initial registry the
structurally valid message `[0, 0, 0, 0]` (service 0, opcode 0, no payload)
ends with the unregistered-service log line, which is not an InvalidOpcode
error. -/
theorem opcode_zero_unregistered_counterexample :
    (ipc_state.initial 1).sized 1 ∧
    structural Endian.little [0, 0, 0, 0] ∧
    (hal_hdr.view Endian.little [0, 0, 0, 0]).service_id ≤ 1 ∧
    (hal_hdr.view Endian.little [0, 0, 0, 0]).opcode = 0 ∧
    ipc_handle_msg Endian.little 1 (ipc_state.initial 1) [0, 0, 0, 0] =
      some [Event.error (Diag.unregistered_service 0), Event.raise_SIGTERM] ∧
    (Diag.unregistered_service 0).kind ≠ FatalError.InvalidOpcode := by
  decide

/-- C3 (amended). Opcode `0` on a registered service: in every registry state
in which the service of the message has a handler table, a structurally valid
message with service id `<= HAL_SERVICE_ID_MAX` and opcode `0` ends with the
invalid-opcode log line and `raise(SIGTERM)`, and no handler is called. -/
theorem handle_msg_opcode_zero (e : Endian) (M : Nat) (st : ipc_state) (buf : List Nat)
    (table : List ipc_handler) (size : Nat)
    (hstruct : structural e buf)
    (hM : (hal_hdr.view e buf).service_id ≤ M)
    (hreg : st.services[(hal_hdr.view e buf).service_id]? =
      some { handler := some table, size := size })
    (hop : (hal_hdr.view e buf).opcode = 0) :
    ipc_handle_msg e M st buf =
        some [Event.error (Diag.invalid_opcode 0 (hal_hdr.view e buf).service_id),
              Event.raise_SIGTERM] ∧
      (Diag.invalid_opcode 0 (hal_hdr.view e buf).service_id).kind = FatalError.InvalidOpcode := by
  rw [handle_structural e M st buf hstruct hM]
  simp only [hreg, hop, HAL_OP_STATUS]
  exact ⟨by simp, rfl⟩

theorem handle_msg_opcode_zero_witness :
    ipc_handle_msg Endian.little 1
        (registry_with 1 [{ handler := 7, var_len := false, data_len := 4 }] 1)
        [1, 0, 0, 0] =
        some [Event.error (Diag.invalid_opcode 0 1), Event.raise_SIGTERM] ∧
      (Diag.invalid_opcode 0 1).kind = FatalError.InvalidOpcode :=
  handle_msg_opcode_zero Endian.little 1
    (registry_with 1 [{ handler := 7, var_len := false, data_len := 4 }] 1) [1, 0, 0, 0]
    [{ handler := 7, var_len := false, data_len := 4 }] 1
    (by decide) (by decide) (by decide) (by decide)

/-- C4. Payload length rule: for a message that passed the structural, service
and opcode checks and resolved to descriptor `d`, `ipc_handle_msg` calls the
handler of `d` exactly when (`d` is fixed-length and the payload length equals
`d.data_len`) or (`d` is variable-length and the payload length is at least
`d.data_len`); otherwise it ends with the size-invalid log line
(PayloadLengthMismatch) and `raise(SIGTERM)`. -/
theorem handle_msg_length_rule (e : Endian) (M : Nat) (st : ipc_state) (buf : List Nat)
    (svc : service_handler) (table : List ipc_handler) (d : ipc_handler)
    (hstruct : structural e buf)
    (hM : (hal_hdr.view e buf).service_id ≤ M)
    (hsvc : st.services[(hal_hdr.view e buf).service_id]? = some svc)
    (htable : svc.handler = some table)
    (hop0 : (hal_hdr.view e buf).opcode ≠ 0)
    (hopN : (hal_hdr.view e buf).opcode ≤ svc.size)
    (hd : table[(hal_hdr.view e buf).opcode - 1]? = some d) :
    (ipc_handle_msg e M st buf =
        some [Event.call d.handler (hal_hdr.payload buf) (hal_hdr.view e buf).len] ↔
      length_rule d (hal_hdr.view e buf).len) ∧
    (¬ length_rule d (hal_hdr.view e buf).len →
      ipc_handle_msg e M st buf =
          some [Event.error (Diag.size_invalid (hal_hdr.view e buf).service_id
                  (hal_hdr.view e buf).opcode), Event.raise_SIGTERM] ∧
        (Diag.size_invalid (hal_hdr.view e buf).service_id
          (hal_hdr.view e buf).opcode).kind = FatalError.PayloadLengthMismatch) := by
  rw [handle_structural e M st buf hstruct hM]
  simp only [hsvc, htable, hd, HAL_OP_STATUS]
  rw [if_neg (by omega)]
  by_cases hr : length_rule d (hal_hdr.view e buf).len
  · rw [if_neg ((length_rule_iff d _).mp hr)]
    simp [hr]
  · have hr2 : (d.var_len = true ∧ d.data_len > (hal_hdr.view e buf).len) ∨
        (d.var_len = false ∧ d.data_len ≠ (hal_hdr.view e buf).len) := by
      by_contra hc
      exact hr ((length_rule_iff d _).mpr hc)
    rw [if_pos hr2]
    simp [hr, Diag.kind]

theorem handle_msg_length_rule_witness :
    ipc_handle_msg Endian.little 1 (registry_with 1 [fixed4] 1) (frame Endian.little 1 1 3) =
      some [Event.error (Diag.size_invalid 1 1), Event.raise_SIGTERM] ∧
    ipc_handle_msg Endian.little 1 (registry_with 1 [fixed4] 1) (frame Endian.little 1 1 5) =
      some [Event.error (Diag.size_invalid 1 1), Event.raise_SIGTERM] ∧
    ipc_handle_msg Endian.little 1 (registry_with 1 [var2] 1) (frame Endian.little 1 1 2) =
      some [Event.call 9 [1, 2] 2] ∧
    ipc_handle_msg Endian.little 1 (registry_with 1 [var2] 1) (frame Endian.little 1 1 3) =
      some [Event.call 9 [1, 2, 3] 3] ∧
    ipc_handle_msg Endian.little 1 (registry_with 1 [var2] 1) (frame Endian.little 1 1 10) =
      some [Event.call 9 [1, 2, 3, 4, 5, 6, 7, 8, 9, 10] 10] ∧
    ipc_handle_msg Endian.little 1 (registry_with 1 [var2] 1) (frame Endian.little 1 1 1) =
      some [Event.error (Diag.size_invalid 1 1), Event.raise_SIGTERM] :=
  ⟨((handle_msg_length_rule Endian.little 1 (registry_with 1 [fixed4] 1)
        (frame Endian.little 1 1 3) { handler := some [fixed4], size := 1 } [fixed4] fixed4
        (by decide) (by decide) (by decide) (by decide) (by decide) (by decide)
        (by decide)).2 (by decide)).1,
   ((handle_msg_length_rule Endian.little 1 (registry_with 1 [fixed4] 1)
        (frame Endian.little 1 1 5) { handler := some [fixed4], size := 1 } [fixed4] fixed4
        (by decide) (by decide) (by decide) (by decide) (by decide) (by decide)
        (by decide)).2 (by decide)).1,
   (handle_msg_length_rule Endian.little 1 (registry_with 1 [var2] 1)
        (frame Endian.little 1 1 2) { handler := some [var2], size := 1 } [var2] var2
        (by decide) (by decide) (by decide) (by decide) (by decide) (by decide)
        (by decide)).1.mpr (by decide),
   (handle_msg_length_rule Endian.little 1 (registry_with 1 [var2] 1)
        (frame Endian.little 1 1 3) { handler := some [var2], size := 1 } [var2] var2
        (by decide) (by decide) (by decide) (by decide) (by decide) (by decide)
        (by decide)).1.mpr (by decide),
   (handle_msg_length_rule Endian.little 1 (registry_with 1 [var2] 1)
        (frame Endian.little 1 1 10) { handler := some [var2], size := 1 } [var2] var2
        (by decide) (by decide) (by decide) (by decide) (by decide) (by decide)
        (by decide)).1.mpr (by decide),
   ((handle_msg_length_rule Endian.little 1 (registry_with 1 [var2] 1)
        (frame Endian.little 1 1 1) { handler := some [var2], size := 1 } [var2] var2
        (by decide) (by decide) (by decide) (by decide) (by decide) (by decide)
        (by decide)).2 (by decide)).1⟩

/-- C7. A message shorter than the 4-byte header, the empty one included,
ends with the too-small log line (StructuralError) and `raise(SIGTERM)` in
every registry state, and no handler is called. -/
theorem handle_msg_short (e : Endian) (M : Nat) (st : ipc_state) (buf : List Nat)
    (hshort : buf.length < 4) :
    ipc_handle_msg e M st buf =
        some [Event.error (Diag.too_small buf.length), Event.raise_SIGTERM] ∧
      (Diag.too_small buf.length).kind = FatalError.StructuralError := by
  unfold ipc_handle_msg
  simp only [hal_hdr_size, hshort, if_true]
  exact ⟨trivial, rfl⟩

theorem handle_msg_short_witness :
    ipc_handle_msg Endian.little 1 (registry_with 1 [fixed4] 1) [] =
        some [Event.error (Diag.too_small 0), Event.raise_SIGTERM] ∧
      (Diag.too_small 0).kind = FatalError.StructuralError :=
  handle_msg_short Endian.little 1 (registry_with 1 [fixed4] 1) [] (by decide)

/-- C8. A message of at least 4 bytes whose declared 16-bit length differs from
its actual length minus 4, whether it is too long or too short, ends with the
malformed log line (StructuralError) and `raise(SIGTERM)` in every registry
state, and no handler is called. -/
theorem handle_msg_length_field (e : Endian) (M : Nat) (st : ipc_state) (buf : List Nat)
    (hhdr : 4 ≤ buf.length)
    (hdiff : (hal_hdr.view e buf).len ≠ buf.length - 4) :
    ipc_handle_msg e M st buf =
        some [Event.error (Diag.malformed buf.length), Event.raise_SIGTERM] ∧
      (Diag.malformed buf.length).kind = FatalError.StructuralError := by
  unfold ipc_handle_msg
  simp only [hal_hdr_size, Nat.not_lt.mpr hhdr, if_false]
  rw [if_pos (by omega)]
  exact ⟨rfl, rfl⟩

theorem handle_msg_length_field_witness :
    ipc_handle_msg Endian.little 1 (registry_with 1 [fixed4] 1) [1, 1, 4, 0, 0, 0, 0, 1, 9] =
        some [Event.error (Diag.malformed 9), Event.raise_SIGTERM] ∧
      (Diag.malformed 9).kind = FatalError.StructuralError :=
  handle_msg_length_field Endian.little 1 (registry_with 1 [fixed4] 1)
    [1, 1, 4, 0, 0, 0, 0, 1, 9] (by decide) (by decide)

/-- C9. Register then unregister: for a service `S <= HAL_SERVICE_ID_MAX`, any
table pointer and size, and any prior registry, `ipc_register (S, table, N)`
followed by `ipc_unregister (S)` both succeed, and afterwards every
structurally valid message addressed to `S`, whatever its opcode and payload,
ends with the unregistered-service log line and `raise(SIGTERM)`, and no handler
is called. -/
theorem handle_msg_after_unregister (e : Endian) (M : Nat) (st : ipc_state) (S : Nat)
    (handlers : Option (List ipc_handler)) (N : Nat) (buf : List Nat)
    (hsized : st.sized M) (hS : S ≤ M) (hS8 : S < 256)
    (hstruct : structural e buf)
    (hsid : (hal_hdr.view e buf).service_id = S) :
    ∃ st1 st2, ipc_register st S handlers N = some st1 ∧ ipc_unregister st1 S = some st2 ∧
      ipc_handle_msg e M st2 buf =
        some [Event.error (Diag.unregistered_service S), Event.raise_SIGTERM] ∧
      (Diag.unregistered_service S).kind = FatalError.UnregisteredService := by
  unfold ipc_state.sized at hsized
  have hlt : S % 256 < st.services.length := by
    rw [Nat.mod_eq_of_lt hS8]; omega
  refine ⟨_, _, ipc_register_inside st S handlers N hlt,
    ipc_unregister_inside _ S (by simpa using hlt), ?_, rfl⟩
  · rw [handle_structural e M _ buf hstruct (by omega)]
    simp only [hsid]
    rw [Nat.mod_eq_of_lt hS8] at hlt ⊢
    simp [hlt]

theorem handle_msg_after_unregister_witness :
    ∃ st1 st2, ipc_register (ipc_state.initial 1) 1 (some [fixed4]) 1 = some st1 ∧
      ipc_unregister st1 1 = some st2 ∧
      ipc_handle_msg Endian.little 1 st2 [1, 1, 4, 0, 0, 0, 0, 1] =
        some [Event.error (Diag.unregistered_service 1), Event.raise_SIGTERM] ∧
      (Diag.unregistered_service 1).kind = FatalError.UnregisteredService :=
  handle_msg_after_unregister Endian.little 1 (ipc_state.initial 1) 1 (some [fixed4]) 1
    [1, 1, 4, 0, 0, 0, 0, 1] (by decide) (by decide) (by decide) (by decide) (by decide)

/-- C5. Validation order, first failure wins: in a registry whose array has
`HAL_SERVICE_ID_MAX + 1` entries and whose tables are as long as their declared
size, the fatal errors `ipc_handle_msg` reports on any received bytes are
exactly the error of the earliest failing step in the order structural decode,
service id in range, service registered, opcode valid, payload length rule
(none when every step passes); a message failing several steps is reported
under the first only. -/
theorem handle_msg_first_failure (e : Endian) (M : Nat) (st : ipc_state) (buf : List Nat)
    (hsized : st.sized M) (htab : st.tables_ok) :
    (ipc_handle_msg e M st buf).map fatal_errors =
      some (spec_first_failure e M st buf).toList := by
  unfold spec_first_failure
  simp only []
  by_cases hs : structural e buf
  · rw [if_neg (not_not.mpr hs)]
    by_cases hM : (hal_hdr.view e buf).service_id ≤ M
    · rw [if_neg (not_not.mpr hM), handle_structural e M st buf hs hM]
      unfold ipc_state.sized at hsized
      have hlt : (hal_hdr.view e buf).service_id < st.services.length := by omega
      have hsvc : st.services[(hal_hdr.view e buf).service_id]? =
          some st.services[(hal_hdr.view e buf).service_id] := List.getElem?_eq_getElem hlt
      generalize st.services[(hal_hdr.view e buf).service_id] = svc at hsvc
      simp only [registered_table, registered_size, hsvc]
      cases ht : svc.handler with
      | none => simp [fatal_errors, Diag.kind]
      | some table =>
        simp only [HAL_OP_STATUS]
        by_cases hop : (hal_hdr.view e buf).opcode = 0 ∨ (hal_hdr.view e buf).opcode > svc.size
        · rw [if_pos hop, if_neg (by simp), if_pos (by omega)]
          simp [fatal_errors, Diag.kind]
        · rw [if_neg hop, if_neg (by simp), if_neg (by omega)]
          obtain ⟨d, hd⟩ := descriptor_exists st _ svc table (hal_hdr.view e buf).opcode
            htab hsvc ht (by omega) (by omega)
          have hres : resolved_descriptor st (hal_hdr.view e buf) = some d := by
            simp [resolved_descriptor, registered_table, hsvc, ht, hd]
          simp only [hd, payload_ok, hres]
          by_cases hr : length_rule d (hal_hdr.view e buf).len
          · rw [if_neg ((length_rule_iff d _).mp hr)]
            simp [hr, fatal_errors]
          · have hr2 : (d.var_len = true ∧ d.data_len > (hal_hdr.view e buf).len) ∨
                (d.var_len = false ∧ d.data_len ≠ (hal_hdr.view e buf).len) := by
              by_contra hc
              exact hr ((length_rule_iff d _).mpr hc)
            rw [if_pos hr2]
            simp [hr, fatal_errors, Diag.kind]
    · rw [if_pos hM, handle_unknown_service e M st buf hs hM]
      simp [fatal_errors, Diag.kind]
  · rw [if_pos hs]
    obtain ⟨d, hk, hd⟩ := handle_not_structural e M st buf hs
    rw [hd]
    simp [fatal_errors, hk]

theorem handle_msg_first_failure_witness :
    (ipc_handle_msg Endian.little 1 (registry_with 1 [fixed4] 1) [2, 0, 9, 0]).map fatal_errors =
      some [FatalError.StructuralError] :=
  handle_msg_first_failure Endian.little 1 (registry_with 1 [fixed4] 1) [2, 0, 9, 0]
    (by decide) (by decide)

/-- C6. A handler is called if and only if the whole pipeline passes: in a
registry whose array has `HAL_SERVICE_ID_MAX + 1` entries and whose tables are
as long as their declared size, `ipc_handle_msg` calls a handler exactly when
`pipeline_passes` holds, and then the trace is that single call; in every
other case the trace is one log line followed by `raise(SIGTERM)`, with no
call. -/
theorem handle_msg_call_iff (e : Endian) (M : Nat) (st : ipc_state) (buf : List Nat)
    (hsized : st.sized M) (htab : st.tables_ok) :
    ((∃ t, ipc_handle_msg e M st buf = some t ∧ calls t ≠ []) ↔ pipeline_passes e M st buf) ∧
    (pipeline_passes e M st buf →
      ∃ h, ipc_handle_msg e M st buf =
        some [Event.call h (hal_hdr.payload buf) (hal_hdr.view e buf).len]) ∧
    (¬ pipeline_passes e M st buf →
      ∃ d, ipc_handle_msg e M st buf = some [Event.error d, Event.raise_SIGTERM]) := by
  have hpass : pipeline_passes e M st buf →
      ∃ h, ipc_handle_msg e M st buf =
        some [Event.call h (hal_hdr.payload buf) (hal_hdr.view e buf).len] := by
    rintro ⟨h1, h2, hM, svc, table, d, hsvc, ht, hop1, hopN, hd, hr⟩
    refine ⟨d.handler, ?_⟩
    rw [handle_structural e M st buf ⟨h1, h2⟩ hM]
    simp only [hsvc, ht, hd, HAL_OP_STATUS]
    rw [if_neg (by omega), if_neg ((length_rule_iff d _).mp hr)]
  have hfail : ¬ pipeline_passes e M st buf →
      ∃ d, ipc_handle_msg e M st buf = some [Event.error d, Event.raise_SIGTERM] := by
    intro hnp
    by_cases hs : structural e buf
    · by_cases hM : (hal_hdr.view e buf).service_id ≤ M
      · rw [handle_structural e M st buf hs hM]
        unfold ipc_state.sized at hsized
        have hlt : (hal_hdr.view e buf).service_id < st.services.length := by omega
        have hsvc : st.services[(hal_hdr.view e buf).service_id]? =
            some st.services[(hal_hdr.view e buf).service_id] := List.getElem?_eq_getElem hlt
        generalize st.services[(hal_hdr.view e buf).service_id] = svc at hsvc
        simp only [hsvc]
        cases ht : svc.handler with
        | none => exact ⟨_, rfl⟩
        | some table =>
          simp only [HAL_OP_STATUS]
          by_cases hop : (hal_hdr.view e buf).opcode = 0 ∨
              (hal_hdr.view e buf).opcode > svc.size
          · rw [if_pos hop]
            exact ⟨_, rfl⟩
          · rw [if_neg hop]
            obtain ⟨d, hd⟩ := descriptor_exists st _ svc table (hal_hdr.view e buf).opcode
              htab hsvc ht (by omega) (by omega)
            simp only [hd]
            by_cases hr : length_rule d (hal_hdr.view e buf).len
            · exact absurd ⟨hs.1, hs.2, hM, svc, table, d, hsvc, ht, by omega, by omega, hd, hr⟩
                hnp
            · have hr2 : (d.var_len = true ∧ d.data_len > (hal_hdr.view e buf).len) ∨
                  (d.var_len = false ∧ d.data_len ≠ (hal_hdr.view e buf).len) := by
                by_contra hc
                exact hr ((length_rule_iff d _).mpr hc)
              rw [if_pos hr2]
              exact ⟨_, rfl⟩
      · exact ⟨_, handle_unknown_service e M st buf hs hM⟩
    · obtain ⟨d, _, hd⟩ := handle_not_structural e M st buf hs
      exact ⟨d, hd⟩
  refine ⟨⟨?_, ?_⟩, hpass, hfail⟩
  · rintro ⟨t, ht, hc⟩
    by_contra hnp
    obtain ⟨d, hd⟩ := hfail hnp
    rw [hd] at ht
    cases ht
    exact hc rfl
  · intro hp
    obtain ⟨h, hh⟩ := hpass hp
    exact ⟨_, hh, by simp [calls]⟩

theorem handle_msg_call_iff_witness :
    ((∃ t, ipc_handle_msg Endian.little 1 (registry_with 1 [fixed4] 1)
          [1, 1, 4, 0, 0, 0, 0, 1] = some t ∧ calls t ≠ []) ↔
      pipeline_passes Endian.little 1 (registry_with 1 [fixed4] 1) [1, 1, 4, 0, 0, 0, 0, 1]) ∧
    (pipeline_passes Endian.little 1 (registry_with 1 [fixed4] 1) [1, 1, 4, 0, 0, 0, 0, 1] →
      ∃ h, ipc_handle_msg Endian.little 1 (registry_with 1 [fixed4] 1)
          [1, 1, 4, 0, 0, 0, 0, 1] =
        some [Event.call h (hal_hdr.payload [1, 1, 4, 0, 0, 0, 0, 1])
          (hal_hdr.view Endian.little [1, 1, 4, 0, 0, 0, 0, 1]).len]) ∧
    (¬ pipeline_passes Endian.little 1 (registry_with 1 [fixed4] 1) [1, 1, 4, 0, 0, 0, 0, 1] →
      ∃ d, ipc_handle_msg Endian.little 1 (registry_with 1 [fixed4] 1)
          [1, 1, 4, 0, 0, 0, 0, 1] = some [Event.error d, Event.raise_SIGTERM]) :=
  handle_msg_call_iff Endian.little 1 (registry_with 1 [fixed4] 1) [1, 1, 4, 0, 0, 0, 0, 1]
    (by decide) (by decide)

/-! ## Responses -/

/-- C10. Response frames: for a service id, an opcode and a status that fit in
8 bits, `ipc_send_rsp` leaves the state unchanged and hands exactly one message
to `sendmsg`, on the command socket and without a control message. With the
success status the message is the header `{S, op, len = 0}` and an empty
payload; with any other status `E` it is the header `{S, opcode 0, len = 1}`
and the payload `[E]`, the same message whatever opcode the caller passed. -/
theorem send_rsp_frames (e : Endian) (sendmsg : Int → msghdr → Int) (SUCCESS : Nat)
    (st : ipc_state) (S op E : Nat) (hS : S < 256) (hop : op < 256) (hE : E < 256) :
    (ipc_send_rsp e sendmsg SUCCESS st S op E).1 = st ∧
    (E = SUCCESS →
      sent (ipc_send_rsp e sendmsg SUCCESS st S op E).2 =
        [(st.cmd_sk,
          { msg_iov := [hal_hdr.bytes e { service_id := S, opcode := op, len := 0 }, []]
            msg_control := none })]) ∧
    (E ≠ SUCCESS →
      sent (ipc_send_rsp e sendmsg SUCCESS st S op E).2 =
          [(st.cmd_sk,
            { msg_iov := [hal_hdr.bytes e { service_id := S, opcode := 0, len := 1 }, [E]]
              msg_control := none })] ∧
        ∀ op2, sent (ipc_send_rsp e sendmsg SUCCESS st S op2 E).2 =
          sent (ipc_send_rsp e sendmsg SUCCESS st S op E).2) := by
  refine ⟨?_, ?_, ?_⟩
  · unfold ipc_send_rsp
    split <;> rfl
  · intro hEq
    unfold ipc_send_rsp
    rw [if_pos (by rw [Nat.mod_eq_of_lt hE]; exact hEq)]
    simp only [sent_ipc_send, Nat.mod_eq_of_lt hS, Nat.mod_eq_of_lt hop]
    simp
  · intro hNe
    have key : ∀ op2, sent (ipc_send_rsp e sendmsg SUCCESS st S op2 E).2 =
        [(st.cmd_sk,
          { msg_iov := [hal_hdr.bytes e { service_id := S, opcode := 0, len := 1 }, [E]]
            msg_control := none })] := by
      intro op2
      unfold ipc_send_rsp
      rw [if_neg (by rw [Nat.mod_eq_of_lt hE]; exact hNe)]
      simp only [sent_ipc_send, Nat.mod_eq_of_lt hS, Nat.mod_eq_of_lt hE, HAL_OP_STATUS,
        hal_status_size]
      simp
    exact ⟨key op, fun op2 => by rw [key op2, key op]⟩

theorem send_rsp_frames_witness :
    sent (ipc_send_rsp Endian.little (fun _ _ => 0) 0 (registry_with 1 [fixed4] 1) 1 2 0).2 =
      [(3, { msg_iov := [[1, 2, 0, 0], []], msg_control := none })] ∧
    sent (ipc_send_rsp Endian.little (fun _ _ => 0) 0 (registry_with 1 [fixed4] 1) 1 2 5).2 =
      [(3, { msg_iov := [[1, 0, 1, 0], [5]], msg_control := none })] :=
  ⟨(send_rsp_frames Endian.little (fun _ _ => 0) 0 (registry_with 1 [fixed4] 1) 1 2 0
      (by decide) (by decide) (by decide)).2.1 rfl,
   ((send_rsp_frames Endian.little (fun _ _ => 0) 0 (registry_with 1 [fixed4] 1) 1 2 5
      (by decide) (by decide) (by decide)).2.2 (by decide)).1⟩

/-! ## Notifications without an endpoint -/

/-- C11. Notification with no endpoint: whenever `notif_sk` is negative, as it
is at program start, after `ipc_init` with a negative notification socket and
after `ipc_cleanup`, `ipc_send_notif` returns with the state unchanged and an
empty trace: no `sendmsg`, no log line, no `raise(SIGTERM)`. -/
theorem send_notif_unset (e : Endian) (sendmsg : Int → msghdr → Int) (M : Nat)
    (st : ipc_state) (command_sk notification_sk : Int) (S op len : Nat) (param : List Nat) :
    (st.notif_sk < 0 → ipc_send_notif e sendmsg st S op len param = (st, [])) ∧
    ipc_send_notif e sendmsg (ipc_state.initial M) S op len param =
      (ipc_state.initial M, []) ∧
    (notification_sk < 0 →
      ipc_send_notif e sendmsg (ipc_init st command_sk notification_sk) S op len param =
        (ipc_init st command_sk notification_sk, [])) ∧
    ipc_send_notif e sendmsg (ipc_cleanup st) S op len param = (ipc_cleanup st, []) := by
  refine ⟨?_, ?_, ?_, ?_⟩
  · intro h
    unfold ipc_send_notif
    rw [if_pos h]
  · unfold ipc_send_notif
    rw [if_pos (by simp [ipc_state.initial])]
  · intro h
    unfold ipc_send_notif
    rw [if_pos (by simpa [ipc_init] using h)]
  · unfold ipc_send_notif
    rw [if_pos (by simp [ipc_cleanup])]

theorem send_notif_unset_witness :
    ipc_send_notif Endian.little (fun _ _ => 0) (ipc_init (registry_with 1 [fixed4] 1) 3 (-1))
        1 2 3 [7, 8, 9] =
      (ipc_init (registry_with 1 [fixed4] 1) 3 (-1), []) :=
  (send_notif_unset Endian.little (fun _ _ => 0) 1 (registry_with 1 [fixed4] 1) 3 (-1)
    1 2 3 [7, 8, 9]).2.2.1 (by decide)

/-! ## Registry -/

/-- The outcome of `ipc_handle_msg` depends on the registry only through the
entry of the service the message names. -/
theorem handle_msg_congr (e : Endian) (M : Nat) (st1 st2 : ipc_state) (buf : List Nat)
    (h : st1.services[(hal_hdr.view e buf).service_id]? =
      st2.services[(hal_hdr.view e buf).service_id]?) :
    ipc_handle_msg e M st1 buf = ipc_handle_msg e M st2 buf := by
  unfold ipc_handle_msg
  simp only [h]

/-- C12. Register overwrites unconditionally: for a service
`S <= HAL_SERVICE_ID_MAX`, `ipc_register (S, t1, n1)` followed by
`ipc_register (S, t2, n2)` ends in the very state that `ipc_register (S, t2, n2)`
alone ends in, whose entry for `S` holds `t2` and `n2`; so every received
message is dispatched alike in both. -/
theorem register_overwrites (e : Endian) (M : Nat) (st : ipc_state) (S : Nat)
    (t1 t2 : Option (List ipc_handler)) (n1 n2 : Nat)
    (hsized : st.sized M) (hS : S ≤ M) (hS8 : S < 256) (hn2 : n2 < 256) :
    ∃ s1 s12 s2, ipc_register st S t1 n1 = some s1 ∧ ipc_register s1 S t2 n2 = some s12 ∧
      ipc_register st S t2 n2 = some s2 ∧ s12 = s2 ∧
      s12.services[S]? = some { handler := t2, size := n2 } ∧
      ∀ buf, ipc_handle_msg e M s12 buf = ipc_handle_msg e M s2 buf := by
  unfold ipc_state.sized at hsized
  have hlt : S % 256 < st.services.length := by
    rw [Nat.mod_eq_of_lt hS8]; omega
  have heq : ({ st with services :=
        ((st.services.set (S % 256) { handler := t1, size := n1 % 256 }).set (S % 256)
          { handler := t2, size := n2 % 256 }) } : ipc_state) =
      { st with services := st.services.set (S % 256) { handler := t2, size := n2 % 256 } } := by
    rw [List.set_set]
  refine ⟨_, _, _, ipc_register_inside st S t1 n1 hlt,
    ipc_register_inside _ S t2 n2 (by simpa using hlt),
    ipc_register_inside st S t2 n2 hlt, heq, ?_, ?_⟩
  · rw [Nat.mod_eq_of_lt hS8] at hlt ⊢
    simp [hlt, Nat.mod_eq_of_lt hn2]
  · intro buf
    rw [heq]

theorem register_overwrites_witness :
    ∃ s1 s12 s2, ipc_register (ipc_state.initial 1) 1 (some [fixed4, var2]) 2 = some s1 ∧
      ipc_register s1 1 (some [var2]) 1 = some s12 ∧
      ipc_register (ipc_state.initial 1) 1 (some [var2]) 1 = some s2 ∧ s12 = s2 ∧
      s12.services[1]? = some { handler := some [var2], size := 1 } ∧
      ∀ buf, ipc_handle_msg Endian.little 1 s12 buf = ipc_handle_msg Endian.little 1 s2 buf :=
  register_overwrites Endian.little 1 (ipc_state.initial 1) 1 (some [fixed4, var2])
    (some [var2]) 2 1 (by decide) (by decide) (by decide) (by decide)

/-! ## Outbound frames -/

/-- On a big-endian target the length `1` sent by `ipc_send` occupies offsets
2 and 3 as `0, 1`, which is not its little-endian encoding `1, 0`. -/
theorem wire_layout_big_endian_counterexample :
    sent (ipc_send Endian.big (fun _ _ => 0) 3 1 2 [9].length [9] (-1)) =
      [(3, { msg_iov := [[1, 2, 0, 1], [9]], msg_control := none })] ∧
    ((msghdr.inband { msg_iov := [[1, 2, 0, 1], [9]], msg_control := none }).drop 2).take 2 ≠
      u16_bytes Endian.little [9].length := by
  decide

/-- C13 (amended). Wire layout: for a service id and an opcode that fit in 8
bits and a payload of length `L <= 65535`, the in-band bytes `ipc_send` hands to
`sendmsg` have total length `4 + L`, the service id at offset 0, the opcode at
offset 1, `L` in the 2 bytes at offset 2 in the byte order of the target (low
byte first on a little-endian target), and the payload unchanged from offset 4
on. -/
theorem wire_layout (e : Endian) (sendmsg : Int → msghdr → Int) (sk : Int)
    (S op : Nat) (payload : List Nat) (fd : Int)
    (hS : S < 256) (hop : op < 256) (hL : payload.length ≤ 65535) :
    ∃ msg, sent (ipc_send e sendmsg sk S op payload.length payload fd) = [(sk, msg)] ∧
      msg.inband.length = 4 + payload.length ∧
      msg.inband[0]? = some S ∧
      msg.inband[1]? = some op ∧
      (msg.inband.drop 2).take 2 = u16_bytes e payload.length ∧
      (e = Endian.little →
        (msg.inband.drop 2).take 2 = [payload.length % 256, payload.length / 256]) ∧
      msg.inband.drop 4 = payload := by
  have hlt : payload.length < 65536 := by omega
  refine ⟨_, sent_ipc_send e sendmsg sk S op payload.length payload fd, ?_⟩
  simp only [msghdr.inband, hal_hdr.bytes, Nat.mod_eq_of_lt hS, Nat.mod_eq_of_lt hop,
    Nat.mod_eq_of_lt hlt, List.take_length]
  cases e
  · have hdiv : payload.length / 256 % 256 = payload.length / 256 := by omega
    simp [u16_bytes, hdiv]
    omega
  · simp [u16_bytes]
    omega

theorem wire_layout_witness :
    ∃ msg, sent (ipc_send Endian.little (fun _ _ => 0) 3 1 2 [9, 8, 7].length [9, 8, 7] (-1)) =
        [(3, msg)] ∧
      msg.inband.length = 4 + [9, 8, 7].length ∧
      msg.inband[0]? = some 1 ∧
      msg.inband[1]? = some 2 ∧
      (msg.inband.drop 2).take 2 = u16_bytes Endian.little [9, 8, 7].length ∧
      (Endian.little = Endian.little →
        (msg.inband.drop 2).take 2 = [[9, 8, 7].length % 256, [9, 8, 7].length / 256]) ∧
      msg.inband.drop 4 = [9, 8, 7] :=
  wire_layout Endian.little (fun _ _ => 0) 3 1 2 [9, 8, 7] (-1)
    (by decide) (by decide) (by decide)

/-- C14. Full response: for a service id and an opcode (0 included) that fit
in 8 bits and a length that fits in 16 bits, `ipc_send_rsp_full` leaves the
state unchanged and hands exactly one message to `sendmsg`, on the command
socket: the header `{S, op, len}` followed by the `len` bytes `param` points
to, opcode and payload unaltered. The message carries a control message if and
only if `fd >= 0`, and then it carries exactly that descriptor. -/
theorem send_rsp_full_frame (e : Endian) (sendmsg : Int → msghdr → Int) (st : ipc_state)
    (S op len : Nat) (param : List Nat) (fd : Int)
    (hS : S < 256) (hop : op < 256) (hlen : len < 65536) :
    (ipc_send_rsp_full e sendmsg st S op len param fd).1 = st ∧
    ∃ msg, sent (ipc_send_rsp_full e sendmsg st S op len param fd).2 = [(st.cmd_sk, msg)] ∧
      msg.msg_iov =
        [hal_hdr.bytes e { service_id := S, opcode := op, len := len }, param.take len] ∧
      (param.length = len → msg.msg_iov.getLast? = some param) ∧
      (msg.msg_control.isSome ↔ fd ≥ 0) ∧
      (fd ≥ 0 → msg.msg_control = some { fd := fd }) := by
  refine ⟨rfl, _, sent_ipc_send e sendmsg st.cmd_sk S op len param fd, ?_⟩
  simp only [Nat.mod_eq_of_lt hS, Nat.mod_eq_of_lt hop, Nat.mod_eq_of_lt hlen]
  refine ⟨trivial, ?_, ?_, ?_⟩
  · intro h
    simp [← h]
  · by_cases hfd : fd ≥ 0 <;> simp [hfd]
  · intro hfd
    simp [hfd]

theorem send_rsp_full_frame_witness :
    (ipc_send_rsp_full Endian.little (fun _ _ => 0) (registry_with 1 [fixed4] 1)
        1 0 2 [9, 8] 5).1 = registry_with 1 [fixed4] 1 ∧
    ∃ msg, sent (ipc_send_rsp_full Endian.little (fun _ _ => 0) (registry_with 1 [fixed4] 1)
        1 0 2 [9, 8] 5).2 = [((registry_with 1 [fixed4] 1).cmd_sk, msg)] ∧
      msg.msg_iov =
        [hal_hdr.bytes Endian.little { service_id := 1, opcode := 0, len := 2 },
          [9, 8].take 2] ∧
      ([9, 8].length = 2 → msg.msg_iov.getLast? = some [9, 8]) ∧
      (msg.msg_control.isSome ↔ (5 : Int) ≥ 0) ∧
      ((5 : Int) ≥ 0 → msg.msg_control = some { fd := 5 }) :=
  send_rsp_full_frame Endian.little (fun _ _ => 0) (registry_with 1 [fixed4] 1) 1 0 2 [9, 8] 5
    (by decide) (by decide) (by decide)

/-- C15. Notification with an endpoint: when `notif_sk` is not negative, for a
service id and an opcode that fit in 8 bits and a length that fits in 16 bits,
`ipc_send_notif` leaves the state unchanged and hands exactly one message to
`sendmsg`, on the notification socket: the header `{S, op, len}` followed by
the `len` bytes `param` points to, with no control message. Nothing is sent on
the command socket (when it is a different socket). -/
theorem send_notif_frame (e : Endian) (sendmsg : Int → msghdr → Int) (st : ipc_state)
    (S op len : Nat) (param : List Nat)
    (hset : 0 ≤ st.notif_sk) (hS : S < 256) (hop : op < 256) (hlen : len < 65536) :
    (ipc_send_notif e sendmsg st S op len param).1 = st ∧
    sent (ipc_send_notif e sendmsg st S op len param).2 =
      [(st.notif_sk,
        { msg_iov :=
            [hal_hdr.bytes e { service_id := S, opcode := op, len := len }, param.take len]
          msg_control := none })] ∧
    (st.cmd_sk ≠ st.notif_sk →
      ∀ x ∈ sent (ipc_send_notif e sendmsg st S op len param).2, x.1 ≠ st.cmd_sk) := by
  have hsent : sent (ipc_send_notif e sendmsg st S op len param).2 =
      [(st.notif_sk,
        { msg_iov :=
            [hal_hdr.bytes e { service_id := S, opcode := op, len := len }, param.take len]
          msg_control := none })] := by
    unfold ipc_send_notif
    rw [if_neg (by omega)]
    simp only [sent_ipc_send, Nat.mod_eq_of_lt hS, Nat.mod_eq_of_lt hop, Nat.mod_eq_of_lt hlen]
    simp
  refine ⟨?_, hsent, ?_⟩
  · unfold ipc_send_notif
    split <;> rfl
  · intro hne x hx
    rw [hsent] at hx
    simp only [List.mem_singleton] at hx
    rw [hx]
    exact fun h => hne h.symm

theorem send_notif_frame_witness :
    sent (ipc_send_notif Endian.little (fun _ _ => 0) (registry_with 1 [fixed4] 1)
        1 2 3 [7, 8, 9]).2 =
      [(4, { msg_iov := [[1, 2, 3, 0], [7, 8, 9]], msg_control := none })] :=
  (send_notif_frame Endian.little (fun _ _ => 0) (registry_with 1 [fixed4] 1) 1 2 3 [7, 8, 9]
    (by decide) (by decide) (by decide) (by decide)).2.1

/-! ## Diagnostics, bounds and the registry frame -/

/-- C16. The size-invalid log line is built with the service id in the slot
labelled opcode and the opcode in the slot labelled service: a 3-byte payload
for service 2, opcode 1 (a fixed 4-byte operation) is logged as opcode 2,
service 1, whereas the invalid-opcode line for service 2, opcode 5 is logged as
opcode 5, service 2. -/
theorem size_invalid_diag_swapped :
    (hal_hdr.view Endian.little [2, 1, 3, 0, 9, 9, 9]).service_id = 2 ∧
    (hal_hdr.view Endian.little [2, 1, 3, 0, 9, 9, 9]).opcode = 1 ∧
    ipc_handle_msg Endian.little 2 (registry_with 2 [fixed4] 1) [2, 1, 3, 0, 9, 9, 9] =
      some [Event.error (Diag.size_invalid 2 1), Event.raise_SIGTERM] ∧
    Diag.size_invalid 2 1 ≠ Diag.size_invalid 1 2 ∧
    ipc_handle_msg Endian.little 2 (registry_with 2 [fixed4] 1) [2, 5, 0, 0] =
      some [Event.error (Diag.invalid_opcode 5 2), Event.raise_SIGTERM] := by
  decide

/-- Cutting every table down to its declared size never changes the outcome
of `ipc_handle_msg`: no descriptor at or beyond the declared size is used. -/
theorem handle_msg_clipped (e : Endian) (M : Nat) (st : ipc_state) (buf : List Nat) :
    ipc_handle_msg e M st.clipped buf = ipc_handle_msg e M st buf := by
  unfold ipc_handle_msg
  simp only [ipc_state.clipped, List.getElem?_map]
  cases st.services[(hal_hdr.view e buf).service_id]? with
  | none => rfl
  | some svc =>
    cases ht : svc.handler with
    | none => simp [ht]
    | some table =>
      simp only [Option.map_some', ht, HAL_OP_STATUS]
      by_cases hop : (hal_hdr.view e buf).opcode = 0 ∨ (hal_hdr.view e buf).opcode > svc.size
      · simp only [if_pos hop]
      · simp only [if_neg hop]
        have hlt : (hal_hdr.view e buf).opcode - 1 < svc.size := by omega
        rw [List.getElem?_take_of_lt hlt]

/-- C17. Indexing stays in bounds: in a registry whose array has
`HAL_SERVICE_ID_MAX + 1` entries and whose tables are as long as their declared
size, `ipc_handle_msg` always produces a trace, so no array is read outside its
extent; the trace is the same when every table is cut down to its declared
size; and whenever a descriptor was read (a handler was called or the payload
length was rejected) the service id is `<= HAL_SERVICE_ID_MAX` and the index
`opcode - 1` satisfies `1 <= opcode` and `opcode - 1 <` the declared size. -/
theorem handle_msg_in_bounds (e : Endian) (M : Nat) (st : ipc_state) (buf : List Nat)
    (hsized : st.sized M) (htab : st.tables_ok) :
    ∃ t, ipc_handle_msg e M st buf = some t ∧
      ipc_handle_msg e M st.clipped buf = some t ∧
      ((calls t ≠ [] ∨ FatalError.PayloadLengthMismatch ∈ fatal_errors t) →
        (hal_hdr.view e buf).service_id ≤ M ∧
        1 ≤ (hal_hdr.view e buf).opcode ∧
        (hal_hdr.view e buf).opcode - 1 <
          registered_size st (hal_hdr.view e buf).service_id) := by
  rw [handle_msg_clipped]
  by_cases hs : structural e buf
  · by_cases hM : (hal_hdr.view e buf).service_id ≤ M
    · rw [handle_structural e M st buf hs hM]
      unfold ipc_state.sized at hsized
      have hlt : (hal_hdr.view e buf).service_id < st.services.length := by omega
      have hsvc : st.services[(hal_hdr.view e buf).service_id]? =
          some st.services[(hal_hdr.view e buf).service_id] := List.getElem?_eq_getElem hlt
      generalize st.services[(hal_hdr.view e buf).service_id] = svc at hsvc
      simp only [hsvc, registered_size]
      cases ht : svc.handler with
      | none => exact ⟨_, rfl, rfl, by simp [calls, fatal_errors, Diag.kind]⟩
      | some table =>
        simp only [HAL_OP_STATUS]
        by_cases hop : (hal_hdr.view e buf).opcode = 0 ∨
            (hal_hdr.view e buf).opcode > svc.size
        · rw [if_pos hop]
          exact ⟨_, rfl, rfl, by simp [calls, fatal_errors, Diag.kind]⟩
        · rw [if_neg hop]
          obtain ⟨d, hd⟩ := descriptor_exists st _ svc table (hal_hdr.view e buf).opcode
            htab hsvc ht (by omega) (by omega)
          simp only [hd]
          have hb : (hal_hdr.view e buf).service_id ≤ M ∧ 1 ≤ (hal_hdr.view e buf).opcode ∧
              (hal_hdr.view e buf).opcode - 1 < svc.size := ⟨hM, by omega, by omega⟩
          split
          · exact ⟨_, rfl, rfl, fun _ => hb⟩
          · exact ⟨_, rfl, rfl, fun _ => hb⟩
    · exact ⟨_, handle_unknown_service e M st buf hs hM, handle_unknown_service e M st buf hs hM,
        by simp [calls, fatal_errors, Diag.kind]⟩
  · obtain ⟨d, hk, hd⟩ := handle_not_structural e M st buf hs
    exact ⟨_, hd, hd, by simp [calls, fatal_errors, hk]⟩

theorem handle_msg_in_bounds_witness :
    ∃ t, ipc_handle_msg Endian.little 1 (registry_with 1 [fixed4, var2] 1)
        [1, 1, 4, 0, 0, 0, 0, 1] = some t ∧
      ipc_handle_msg Endian.little 1 (registry_with 1 [fixed4, var2] 1).clipped
        [1, 1, 4, 0, 0, 0, 0, 1] = some t ∧
      ((calls t ≠ [] ∨ FatalError.PayloadLengthMismatch ∈ fatal_errors t) →
        (hal_hdr.view Endian.little [1, 1, 4, 0, 0, 0, 0, 1]).service_id ≤ 1 ∧
        1 ≤ (hal_hdr.view Endian.little [1, 1, 4, 0, 0, 0, 0, 1]).opcode ∧
        (hal_hdr.view Endian.little [1, 1, 4, 0, 0, 0, 0, 1]).opcode - 1 <
          registered_size (registry_with 1 [fixed4, var2] 1)
            (hal_hdr.view Endian.little [1, 1, 4, 0, 0, 0, 0, 1]).service_id) :=
  handle_msg_in_bounds Endian.little 1 (registry_with 1 [fixed4, var2] 1)
    [1, 1, 4, 0, 0, 0, 0, 1] (by decide) (by decide)

/-- C18. Registry frame: for distinct services `S` and `T`, with
`S <= HAL_SERVICE_ID_MAX`, `ipc_register (S, ..)` and `ipc_unregister (S)`
succeed and leave the entry of `T`, `cmd_sk` and `notif_sk` as they were, so
every message naming service `T` is dispatched as before. -/
theorem registry_frame (e : Endian) (M : Nat) (st : ipc_state) (S T : Nat)
    (handlers : Option (List ipc_handler)) (N : Nat)
    (hsized : st.sized M) (hS : S ≤ M) (hS8 : S < 256) (hST : S ≠ T) :
    (∃ s1, ipc_register st S handlers N = some s1 ∧
      s1.services[T]? = st.services[T]? ∧ s1.cmd_sk = st.cmd_sk ∧ s1.notif_sk = st.notif_sk ∧
      ∀ buf, (hal_hdr.view e buf).service_id = T →
        ipc_handle_msg e M s1 buf = ipc_handle_msg e M st buf) ∧
    (∃ s2, ipc_unregister st S = some s2 ∧
      s2.services[T]? = st.services[T]? ∧ s2.cmd_sk = st.cmd_sk ∧ s2.notif_sk = st.notif_sk ∧
      ∀ buf, (hal_hdr.view e buf).service_id = T →
        ipc_handle_msg e M s2 buf = ipc_handle_msg e M st buf) := by
  unfold ipc_state.sized at hsized
  have hlt : S % 256 < st.services.length := by
    rw [Nat.mod_eq_of_lt hS8]; omega
  have hmod : S % 256 = S := Nat.mod_eq_of_lt hS8
  have hget : ∀ x : service_handler, (st.services.set (S % 256) x)[T]? = st.services[T]? := by
    intro x
    rw [hmod]
    exact List.getElem?_set_ne hST
  refine ⟨⟨_, ipc_register_inside st S handlers N hlt, hget _, rfl, rfl, ?_⟩,
    ⟨_, ipc_unregister_inside st S hlt, hget _, rfl, rfl, ?_⟩⟩
  · intro buf hT
    exact handle_msg_congr e M _ st buf (by rw [hT]; exact hget _)
  · intro buf hT
    exact handle_msg_congr e M _ st buf (by rw [hT]; exact hget _)

theorem registry_frame_witness :
    (∃ s1, ipc_register (registry_with 1 [fixed4] 1) 0 (some [var2]) 1 = some s1 ∧
      s1.services[1]? = (registry_with 1 [fixed4] 1).services[1]? ∧
      s1.cmd_sk = (registry_with 1 [fixed4] 1).cmd_sk ∧
      s1.notif_sk = (registry_with 1 [fixed4] 1).notif_sk ∧
      ∀ buf, (hal_hdr.view Endian.little buf).service_id = 1 →
        ipc_handle_msg Endian.little 1 s1 buf =
          ipc_handle_msg Endian.little 1 (registry_with 1 [fixed4] 1) buf) ∧
    (∃ s2, ipc_unregister (registry_with 1 [fixed4] 1) 0 = some s2 ∧
      s2.services[1]? = (registry_with 1 [fixed4] 1).services[1]? ∧
      s2.cmd_sk = (registry_with 1 [fixed4] 1).cmd_sk ∧
      s2.notif_sk = (registry_with 1 [fixed4] 1).notif_sk ∧
      ∀ buf, (hal_hdr.view Endian.little buf).service_id = 1 →
        ipc_handle_msg Endian.little 1 s2 buf =
          ipc_handle_msg Endian.little 1 (registry_with 1 [fixed4] 1) buf) :=
  registry_frame Endian.little 1 (registry_with 1 [fixed4] 1) 0 1 (some [var2]) 1
    (by decide) (by decide) (by decide) (by decide)

/-- C19. Empty but present table: after `ipc_register (S, table, 0)` with a
non-null table and `S <= HAL_SERVICE_ID_MAX`, every structurally valid message
addressed to `S`, whatever its opcode, ends with the invalid-opcode log line
and `raise(SIGTERM)`, no handler being called; after `ipc_register (S, NULL, N)`
for any `N` it ends with the unregistered-service log line. -/
theorem empty_table_dispatch (e : Endian) (M : Nat) (st : ipc_state) (S : Nat)
    (table : List ipc_handler) (buf : List Nat)
    (hsized : st.sized M) (hS : S ≤ M) (hS8 : S < 256)
    (hstruct : structural e buf)
    (hsid : (hal_hdr.view e buf).service_id = S) :
    (∃ s1, ipc_register st S (some table) 0 = some s1 ∧
      ipc_handle_msg e M s1 buf =
        some [Event.error (Diag.invalid_opcode (hal_hdr.view e buf).opcode S),
              Event.raise_SIGTERM] ∧
      (Diag.invalid_opcode (hal_hdr.view e buf).opcode S).kind = FatalError.InvalidOpcode) ∧
    (∀ N, ∃ s2, ipc_register st S none N = some s2 ∧
      ipc_handle_msg e M s2 buf =
        some [Event.error (Diag.unregistered_service S), Event.raise_SIGTERM] ∧
      (Diag.unregistered_service S).kind = FatalError.UnregisteredService) := by
  unfold ipc_state.sized at hsized
  have hlt : S % 256 < st.services.length := by
    rw [Nat.mod_eq_of_lt hS8]; omega
  have hlt2 : S < st.services.length := by omega
  have hmod : S % 256 = S := Nat.mod_eq_of_lt hS8
  refine ⟨⟨_, ipc_register_inside st S (some table) 0 hlt, ?_, rfl⟩, fun N =>
    ⟨_, ipc_register_inside st S none N hlt, ?_, rfl⟩⟩
  · rw [handle_structural e M _ buf hstruct (by omega)]
    simp only [hsid, hmod]
    simp only [List.getElem?_set_self hlt2, HAL_OP_STATUS]
    rw [if_pos (by omega)]
  · rw [handle_structural e M _ buf hstruct (by omega)]
    simp only [hsid, hmod]
    simp only [List.getElem?_set_self hlt2]

theorem empty_table_dispatch_witness :
    (∃ s1, ipc_register (ipc_state.initial 1) 1 (some [fixed4]) 0 = some s1 ∧
      ipc_handle_msg Endian.little 1 s1 [1, 1, 4, 0, 0, 0, 0, 1] =
        some [Event.error (Diag.invalid_opcode
                (hal_hdr.view Endian.little [1, 1, 4, 0, 0, 0, 0, 1]).opcode 1),
              Event.raise_SIGTERM] ∧
      (Diag.invalid_opcode (hal_hdr.view Endian.little [1, 1, 4, 0, 0, 0, 0, 1]).opcode 1).kind =
        FatalError.InvalidOpcode) ∧
    (∀ N, ∃ s2, ipc_register (ipc_state.initial 1) 1 none N = some s2 ∧
      ipc_handle_msg Endian.little 1 s2 [1, 1, 4, 0, 0, 0, 0, 1] =
        some [Event.error (Diag.unregistered_service 1), Event.raise_SIGTERM] ∧
      (Diag.unregistered_service 1).kind = FatalError.UnregisteredService) :=
  empty_table_dispatch Endian.little 1 (ipc_state.initial 1) 1 [fixed4]
    [1, 1, 4, 0, 0, 0, 0, 1] (by decide) (by decide) (by decide) (by decide) (by decide)

end Ipc
